import Mathlib

/-!
# Verification of the comics-enhance selector/operation algebra

Shallow embedding of the repository `Lucretiel/comics-enhance`.

`src/enhance.js` contains three iterations of the library separated by
document markers:

* iteration **V1** — lines 1–217: soft `queryChildren`, `force`, `once`;
* lines 218–251: an early `search`-based version;
* iteration **V2** — lines 252–466: the `select`/`selectAll`-based
  combinators, `isLink`, the four-argument `addAltText`.

`src/unnamed/part_001` (namespace **P1**) is the `search`/`useElement`
iteration cited by the claims about complex-selector resolution.

The document tree is modelled as a rose tree of node records; a DOM node is
addressed by its path (list of child indices) from the document root.
Operations are state transformers over the tree plus an event log, a
subscription list, and a cell store (the cell store models the mutable
`success` / `done` flags closed over by `force` and `once`).  A raised JS
exception is modelled by an `Option String` error component; state reached
before the raise is kept, and sequencing short-circuits, like JS exception
propagation does.
-/

/-- The observable data of a DOM element.  `tags` lists the string patterns
the node matches (standing in for the native CSS matching primitive, which
the spec treats as an external collaborator); `canMatch` records whether the
node exposes a `matches` method (`false` for the document root, which is why
the source guards it with optional chaining); `complete` is the image
load-state flag read by `loaded`. -/
structure NodeData where
  tags : List String
  href : Option String
  title : String
  innerText : String
  fontSize : String
  color : Option String
  backgroundColor : Option String
  complete : Bool
  canMatch : Bool
  deriving Repr, DecidableEq

/-- A node record with every field defaulted; concrete test documents
override just the fields they need. -/
def blankData : NodeData :=
  { tags := [], href := none, title := "", innerText := "", fontSize := "",
    color := none, backgroundColor := none, complete := false, canMatch := true }

/-- The document tree: a node record plus its children in document order. -/
inductive DTree where
  | node (data : NodeData) (children : List DTree)
  deriving Repr

/-- The record stored at the root of a subtree. -/
def DTree.dataOf : DTree → NodeData
  | .node d _ => d

/-- The children of the root of a subtree. -/
def DTree.kids : DTree → List DTree
  | .node _ cs => cs

/-- A node is addressed by its path of child indices from the document root. -/
abbrev PPath := List Nat

/-- Subtree at a path (`some` iff the path addresses an existing node). -/
def getNode : PPath → DTree → Option DTree
  | [], t => some t
  | i :: rest, .node _ cs =>
    match cs[i]? with
    | some c => getNode rest c
    | none => none

/-- Whether the node at a path matches a string pattern. -/
def nodeMatches (t : DTree) (n : PPath) (p : String) : Bool :=
  match getNode n t with
  | some sub => decide (p ∈ sub.dataOf.tags)
  | none => false

/-- Whether the node at a path exposes a `matches` method and matches the
pattern; this is the `node.matches?.(pattern)` test of the source, with the
optional chaining embedded as the `canMatch` flag. -/
def selfMatch (t : DTree) (n : PPath) (p : String) : Bool :=
  match getNode n t with
  | some sub => sub.dataOf.canMatch && decide (p ∈ sub.dataOf.tags)
  | none => false

mutual
/-- Proper descendants of a subtree rooted at path `pre`, as
`(path, data)` pairs in document (preorder) order. -/
def descend (pre : PPath) : DTree → List (PPath × NodeData)
  | .node _ cs => descendKids pre 0 cs

/-- Descendant enumeration of a child list starting at child index `i`. -/
def descendKids (pre : PPath) (i : Nat) : List DTree → List (PPath × NodeData)
  | [] => []
  | c :: cs =>
    (pre ++ [i], c.dataOf) :: (descend (pre ++ [i]) c ++ descendKids pre (i + 1) cs)
end

/-- The native multi-match lookup `node.querySelectorAll(pattern)`: the
paths of all proper descendants of the node at `n` matching `p`, in document
order (preorder of the tree walk). -/
def querySelectorAll (t : DTree) (n : PPath) (p : String) : List PPath :=
  match getNode n t with
  | some sub => ((descend n sub).filter (fun pd => decide (p ∈ pd.2.tags))).map (·.1)
  | none => []

/-- The native single-match lookup `node.querySelector(pattern)`: the first
matching proper descendant in document order, if any. -/
def querySelector (t : DTree) (n : PPath) (p : String) : Option PPath :=
  (querySelectorAll t n p).head?

/-- `element.title` (empty when the path is dangling). -/
def titleOf (t : DTree) (n : PPath) : String :=
  match getNode n t with
  | some sub => sub.dataOf.title
  | none => ""

/-- `element.href` (`none` when absent). -/
def hrefOf (t : DTree) (n : PPath) : Option String :=
  match getNode n t with
  | some sub => sub.dataOf.href
  | none => none

/-- `img.complete`. -/
def completeOf (t : DTree) (n : PPath) : Bool :=
  match getNode n t with
  | some sub => sub.dataOf.complete
  | none => false

/-- Insert `new` as the next sibling of the node at path `p`
(`afterNode.parentNode.insertBefore(new, afterNode.nextSibling)`).
`none` when the path is empty (the document root has no parent) or
dangling. -/
def insertAfterSib : PPath → DTree → DTree → Option DTree
  | [], _, _ => none
  | [i], new, .node d cs =>
    if i < cs.length then some (.node d (cs.take (i + 1) ++ new :: cs.drop (i + 1)))
    else none
  | i :: j :: rest, new, .node d cs =>
    match cs[i]? with
    | some c =>
      match insertAfterSib (j :: rest) new c with
      | some c' => some (.node d (cs.set i c'))
      | none => none
    | none => none

/-- The path of the next sibling of the node at a (non-root) path: the last
child index is bumped by one. -/
def sibAfter : PPath → PPath
  | [] => []
  | [i] => [i + 1]
  | i :: j :: rest => i :: sibAfter (j :: rest)

/-! ## Effects -/

/-- Observable events recorded by the instrumented operations used in the
theorems.  `invoked n` marks a downstream-operation call on the node `n`;
`invokedWithBase sel root` marks a call `F(sel)(root)` of a `withBase`
operation factory; `scrollNow c` is `content.scrollIntoView()` performed
without waiting for any load signal; `scrollAfterSignal img c` is the same
scroll suspended until the load-or-error signal of `img` fires. -/
inductive Event where
  | invoked (n : PPath)
  | invokedWithBase (sel : PPath) (root : PPath)
  | scrollNow (n : PPath)
  | scrollAfterSignal (img : PPath) (n : PPath)
  deriving Repr, DecidableEq

/-- What a key handler does when a key event for `key` is delivered:
optionally navigate (`window.location.assign`) and optionally suppress the
default handling (`event.preventDefault()`). -/
structure KeyResult where
  navigates : Option String
  suppresses : Bool
  deriving Repr, DecidableEq

/-- A key-event subscription created by `root.addEventListener(kind, ...)`:
the node it is registered on, whether it listens for `"keyup"` (`true`) or
`"keydown"` (`false`), and the handler's behavior per delivered key. -/
structure KeySub where
  root : PPath
  onKeyup : Bool
  handle : String → KeyResult

/-- The mutable world an operation acts on: the document tree, the event
log, the registered key subscriptions, and a store of boolean cells
modelling the local mutable flags (`success`, `done`) that `force` and
`once` close over. -/
structure St where
  tree : DTree
  log : List Event
  subs : List KeySub
  cells : List Bool

/-- Append an event to the log. -/
def St.addEvent (s : St) (e : Event) : St := { s with log := s.log ++ [e] }

/-- Register a subscription. -/
def St.addSub (s : St) (x : KeySub) : St := { s with subs := s.subs ++ [x] }

/-- Allocate a fresh boolean cell, returning its index. -/
def St.alloc (s : St) (b : Bool) : Nat × St :=
  (s.cells.length, { s with cells := s.cells ++ [b] })

/-- Read a cell. -/
def St.readCell (s : St) (i : Nat) : Bool := s.cells.getD i false

/-- Write a cell. -/
def St.writeCell (s : St) (i : Nat) (b : Bool) : St :=
  { s with cells := s.cells.set i b }

/-- Result of running an operation: the final state plus `some msg` when a
JS exception was raised (state reached before the raise is kept). -/
abbrev Res := St × Option String

/-- An Operation, `(node: Element) => void`. -/
abbrev Op := PPath → St → Res

/-- A Selector, `(Operation) => Operation`. -/
abbrev Sel := Op → Op

/-- Run an operation on each node of a list in order, stopping at the first
raised exception (JS `forEach` aborted by a throw). -/
def forEachOp (op : Op) : List PPath → St → Res
  | [], s => (s, none)
  | n :: ns, s =>
    match op n s with
    | (s', none) => forEachOp op ns s'
    | (s', some e) => (s', some e)

/-- Run a list of `Node → void` closures already applied to their node, in
order, stopping at the first raised exception. -/
def runSeq : List (St → Res) → St → Res
  | [], s => (s, none)
  | f :: fs, s =>
    match f s with
    | (s', none) => runSeq fs s'
    | (s', some e) => (s', some e)

/-- A selector given by a pure discovery function: it invokes the downstream
operation once per node that `d` discovers from the input node, in order.
This is the semantic shape the spec calls a Selector ("discovers zero or
more selected nodes reachable from it and invokes the downstream operation
on each"); it is used to quantify over selectors in the combinator
theorems. -/
def selectorOfDiscovery (d : DTree → PPath → List PPath) : Sel :=
  fun op node s => forEachOp op (d s.tree node) s

/-- Instrumented downstream operation that only records its argument. -/
def logOp : Op := fun n s => (s.addEvent (.invoked n), none)

/-- Instrumented `withBase` operation factory that records the pair
(selected node, original root). -/
def logPairOp (sel : PPath) (root : PPath) : St → Res :=
  fun s => (s.addEvent (.invokedWithBase sel root), none)

/-! ## Shared combinators

`concat`, `all`, `withBase`, `chain` and `auto` are textually identical in
iterations V1 and V2 of `src/enhance.js` (lines 32–60 and 275–316), so they
are embedded once. -/

/-- `all(operations)` (lines 49 and 305): execute each operation on the
input node, in sequence order. -/
def allOps (ops : List Op) : Op :=
  fun node s => runSeq (ops.map (fun op => op node)) s

/-- `concat(selectors)` (lines 45–46 and 301–302): union of the discovery
sets of the member selectors, in sequence order. -/
def concat (sels : List Sel) (op : Op) : Op :=
  allOps (sels.map (fun sel => sel op))

/-- `withBase(selector)` (lines 54–55 and 310–311): discover nodes via the
inner selector but thread the original input node through to the final
operation.  The operation argument is a factory taking the selected value
and then the original node; it is polymorphic in the selected-value type
because V1's `force` passes `null` (an `Option PPath`) where the other
selectors pass elements. -/
def withBase {α : Type} (sel : (α → St → Res) → PPath → St → Res)
    (op : α → PPath → St → Res) : PPath → St → Res :=
  fun node => sel (fun selected => op selected node) node

/-- `chain(selectors)` (lines 59–60 and 315–316):
`selectors.reduceRight((op, selector) => selector(op), operation)` — the
discovery output of each selector feeds the next as its search root. -/
def chain (sels : List Sel) (op : Op) : Op :=
  sels.foldr (fun sel acc => sel acc) op

/-- A caller-facing configuration value: a string pattern, `null`/absent, a
function value (a Selector), or any other JS value (number, object, ...)
described by a tag. -/
inductive ConfigValue where
  | str (s : String)
  | nil
  | fn (f : Sel)
  | other (desc : String)

/-- `auto(builder)` (lines 32–37 and 275–280): a string is passed to the
builder, `null` becomes the no-op selector, and **any other value is passed
through unchanged** — no shape check is performed. -/
def auto (builder : String → Sel) : ConfigValue → ConfigValue
  | .str s => .fn (builder s)
  | .nil => .fn (fun _ _ s => (s, none))
  | v => v

/-- Using a configuration value in selector position (`selector(operation)`
as done by the behavior builders): a function value is applied; any other
value raises a `TypeError` at that point — this is where the fault of a
malformed value actually surfaces. -/
def applySelectorValue : ConfigValue → Sel
  | .fn f => f
  | _ => fun _ _ s => (s, some "TypeError: selector is not a function")

/-- The body of the scroll factory of `scrollAfterLoad` (textually identical
at lines 150–161 and 393–404).  `loaded(img)` (lines 136–144 / 379–387)
resolves at once when `img.complete` is already set and otherwise only when
the image's load-or-error signal fires; `.finally` scrolls on both
outcomes.  `scrollNow` records a scroll performed without waiting for any
signal, `scrollAfterSignal` one suspended until the signal. -/
def scrollOp (img : Option PPath) (content : PPath) (s : St) : Res :=
  match img with
  | none => (s.addEvent (.scrollNow content), none)
  | some i =>
    if completeOf s.tree i then (s.addEvent (.scrollNow content), none)
    else (s.addEvent (.scrollAfterSignal i content), none)

namespace V1

/-- `queryChildren` of iteration V1 (lines 13–16): find the first matching
descendant; when none is found the downstream operation is simply not
invoked — no exception. -/
def queryChildren (p : String) : Sel := fun op node s =>
  match querySelector s.tree node p with
  | some selected => op selected s
  | none => (s, none)

/-- `query` of iteration V1 (lines 19–26):
`(node?.matches?.(selector) ? operation : childOperation)(node)` — operate
the input node itself when it exposes `matches` and matches, otherwise fall
back to `queryChildren`. -/
def query (p : String) : Sel := fun op node s =>
  if selfMatch s.tree node p then op node s
  else queryChildren p op node s

/-- `queryAll` of iteration V1 (lines 29–30): invoke the downstream
operation once per matching descendant, in document order. -/
def queryAll (p : String) : Sel := fun op node s =>
  forEachOp op (querySelectorAll s.tree node p) s

/-- `once` (lines 79–88): a `done` flag (a fresh cell) restricts the
wrapped selector to its first discovered node. -/
def once (sel : Sel) (op : Op) : Op := fun node s =>
  let (i, s1) := s.alloc false
  sel (fun selected s' =>
      if s'.readCell i then (s', none)
      else op selected (s'.writeCell i true)) node s1

/-- `force` (lines 64–75).  The source builds the wrapped operation
`selector(selected => { success = true; operation(selected); })` but never
applies it to `node` — the `(node)` call is missing — so the callback can
never run: building the closure has no effect (kept here as the unused
`discarded` binding), the `success` cell necessarily still holds `false`,
and `operation(null)` always runs. -/
def force (sel : Sel) (op : Option PPath → St → Res) : PPath → St → Res :=
  fun _node s =>
    let (i, s1) := s.alloc false
    let discarded : Op :=
      sel (fun selected s' => op (some selected) (s'.writeCell i true))
    let _ := discarded
    if s1.readCell i then (s1, none) else op none s1

/-- `queryImg` of iteration V1 (line 133). -/
def queryImg : Sel := query "img"

/-- `scrollAfterLoad` of iteration V1 (lines 148–162): locate the content
node, search it for an image with `force(once(queryImg))`, then scroll —
immediately when `img` is `null`, else after `loaded(img)` settles. -/
def scrollAfterLoad (contentSelector : Sel) : Op :=
  contentSelector (withBase (force (once queryImg)) scrollOp)

end V1

namespace V2

/-- `select` of iteration V2 (lines 289–293): build a selector from a
single-node lookup; **when the lookup comes back empty it raises**
(`throw new Error(...)`) instead of skipping. -/
def select (nodeSelector : DTree → PPath → Option PPath) (op : Op) : Op :=
  fun node s =>
    match nodeSelector s.tree node with
    | some selected => op selected s
    | none => (s, some "Failed to match selector in node")

/-- `selectAll` of iteration V2 (lines 297–298): invoke the operation on
each node of a multi-node lookup, in order; an empty result is fine. -/
def selectAll (nodeSelectorAll : DTree → PPath → List PPath) (op : Op) : Op :=
  fun node s => forEachOp op (nodeSelectorAll s.tree node) s

/-- `queryChildren` of iteration V2 (line 264). -/
def queryChildren (p : String) : Sel :=
  select (fun t n => querySelector t n p)

/-- `query` of iteration V2 (lines 267–270): self-match (behind optional
chaining) or first matching descendant. -/
def query (p : String) : Sel :=
  select (fun t n => if selfMatch t n p then some n else querySelector t n p)

/-- `queryAll` of iteration V2 (line 273). -/
def queryAll (p : String) : Sel :=
  selectAll (fun t n => querySelectorAll t n p)

/-- `createNavigator` of iteration V2 (lines 325–344): find the target via
the selector with the original root retained; when the target has a truthy
`href`, register a `keyup` handler (navigate and suppress default on the
matching key) and a `keydown` handler (suppress default on the matching
key) on the root passed to the operation. -/
def createNavigator (sel : Sel) (button : String) : Op :=
  withBase sel (fun element root s =>
    match hrefOf s.tree element with
    | none => (s, none)
    | some target =>
      if target = "" then (s, none)
      else
        ((s.addSub
            { root := root, onKeyup := true,
              handle := fun k =>
                if k = button then { navigates := some target, suppresses := true }
                else { navigates := none, suppresses := false } }).addSub
          { root := root, onKeyup := false,
            handle := fun k =>
              if k = button then { navigates := none, suppresses := true }
              else { navigates := none, suppresses := false } }, none))

/-! ### `isLink` (lines 346–349)

The source tests the caption text against the anchored regex

`^https?:\/\/(?:[-\w]+\.)+[-\w+]+(?:\/[-\w_~%]+)*\/?`
`(?:\?[-\w_~%]+=[-\w_~%]+(?:&[-\w_~%]+=[-\w_~%]+)*)?(#[-\w_~%]+)?$`

None of the character classes contains the delimiters `.` `/` `?` `#` `=`
`&`, so the regex is equivalent to the deterministic split-based parser
below (each region is delimited by characters no class can absorb, leaving
the backtracking engine no choice). -/

/-- `\w`: ASCII letter, digit or underscore (the source regex has no
Unicode flag). -/
def wordChar (c : Char) : Bool := c.isAlpha || c.isDigit || c = '_'

/-- The class `[-\w]` (non-final host labels). -/
def labelChar (c : Char) : Bool := c = '-' || wordChar c

/-- The class `[-\w+]` (final host label). -/
def hostEndChar (c : Char) : Bool := c = '-' || wordChar c || c = '+'

/-- The class `[-\w_~%]` (path segments, query keys and values, fragment). -/
def segChar (c : Char) : Bool := c = '-' || wordChar c || c = '~' || c = '%'

/-- Split a character list on a separator (list analogue of
`String.splitOn` for a single character). -/
def splitChar (sep : Char) : List Char → List (List Char)
  | [] => [[]]
  | c :: rest =>
    match splitChar sep rest with
    | [] => [[]]
    | h :: t => if c = sep then [] :: h :: t else (c :: h) :: t

/-- `https?:\/\/`. -/
def stripScheme : List Char → Option (List Char)
  | 'h' :: 't' :: 't' :: 'p' :: 's' :: ':' :: '/' :: '/' :: r => some r
  | 'h' :: 't' :: 't' :: 'p' :: ':' :: '/' :: '/' :: r => some r
  | _ => none

/-- `(?:[-\w]+\.)+[-\w+]+`: at least two dot-separated labels, the final
one drawn from the wider class. -/
def checkHost (l : List Char) : Bool :=
  let parts := splitChar '.' l
  decide (2 ≤ parts.length) &&
  parts.dropLast.all (fun q => !q.isEmpty && q.all labelChar) &&
  (match parts.getLast? with
   | some q => !q.isEmpty && q.all hostEndChar
   | none => false)

/-- `(?:\/[-\w_~%]+)*\/?`: slash-led nonempty segments with an optional
trailing slash. -/
def checkPath (l : List Char) : Bool :=
  match l with
  | [] => true
  | '/' :: rest =>
    let parts := splitChar '/' rest
    let core := if parts.getLast? = some [] then parts.dropLast else parts
    core.all (fun q => !q.isEmpty && q.all segChar)
  | _ => false

/-- `[-\w_~%]+=[-\w_~%]+`: one key-value pair. -/
def checkKV (q : List Char) : Bool :=
  match splitChar '=' q with
  | [k, v] => !k.isEmpty && k.all segChar && !v.isEmpty && v.all segChar
  | _ => false

/-- `[-\w_~%]+=[-\w_~%]+(?:&[-\w_~%]+=[-\w_~%]+)*`: ampersand-separated
pairs, at least one. -/
def checkQuery (l : List Char) : Bool :=
  (splitChar '&' l).all checkKV

/-- `(#[-\w_~%]+)?`: nothing, or a hash followed by a nonempty fragment. -/
def checkFrag : List Char → Bool
  | [] => true
  | '#' :: rest => !rest.isEmpty && rest.all segChar
  | _ => false

/-- `isLink` of iteration V2 (lines 346–349): whether the text matches the
fixed absolute-URL pattern. -/
def isLink (text : String) : Bool :=
  match stripScheme text.toList with
  | none => false
  | some rest =>
    let host := rest.takeWhile (fun c => !(c = '/' || c = '?' || c = '#'))
    let afterHost := rest.dropWhile (fun c => !(c = '/' || c = '?' || c = '#'))
    let path := afterHost.takeWhile (fun c => !(c = '?' || c = '#'))
    let afterPath := afterHost.dropWhile (fun c => !(c = '?' || c = '#'))
    checkHost host && checkPath path &&
    (match afterPath with
     | [] => true
     | '?' :: q =>
       checkQuery (q.takeWhile (fun c => !(c = '#'))) &&
       checkFrag (q.dropWhile (fun c => !(c = '#')))
     | rest2 => checkFrag rest2)

/-- JS truthiness of an optional string (the empty string is falsy):
`if (foreground) element.style.color = foreground`. -/
def truthyStr : Option String → Option String
  | some "" => none
  | x => x

/-- The `span` element synthesised by `addAltText` (lines 357–363):
`innerText` is the caption, `fontSize` is `16pt`, and the colours are set
only when the corresponding override is truthy. -/
def mkSpanData (text : String) (fg bg : Option String) : NodeData :=
  { blankData with
    tags := ["span"], innerText := text, fontSize := "16pt",
    color := truthyStr fg, backgroundColor := truthyStr bg }

/-- The element `addAltText` inserts (lines 357–370): the span, wrapped in
an `a` element pointing at the caption exactly when `isLink` accepts it. -/
def mkInserted (text : String) (fg bg : Option String) : DTree :=
  let span := DTree.node (mkSpanData text fg bg) []
  if isLink text then
    DTree.node { blankData with tags := ["a"], href := some text } [span]
  else span

/-- The per-`afterNode` body of `addAltText` (lines 355–373): synthesise
the element and insert it as `afterNode`'s next sibling via
`afterNode.parentNode.insertBefore(element, afterNode.nextSibling)`;
a `TypeError` propagates when `afterNode` has no parent. -/
def insertOp (text : String) (fg bg : Option String) : Op := fun afterNode s =>
  match insertAfterSib afterNode (mkInserted text fg bg) s.tree with
  | some t' => ({ s with tree := t' }, none)
  | none => (s, some "TypeError: parentNode of afterNode is null")

/-- `addAltText` of iteration V2 (lines 351–374): locate the caption source
with the original root retained, read its `title` once, then run the
insertion for each node the after-selector finds from the same root. -/
def addAltText (textSelector afterSelector : Sel) (fg bg : Option String) : Op :=
  withBase textSelector (fun textNode root s =>
    let altText := titleOf s.tree textNode
    afterSelector (insertOp altText fg bg) root s)

/-- `queryImg` of iteration V2 (line 376). -/
def queryImg : Sel := query "img"

/-- `scrollAfterLoad` of iteration V2 (lines 391–405).  The factory body is
the same as V1's (including the `img == null` test), but the image selector
is `withBase(queryImg)` with no `force`: `select` passes the element itself
(never `null`) to the factory — modelled by the `some` injection — and
raises when no image exists. -/
def scrollAfterLoad (contentSelector : Sel) : Op :=
  contentSelector
    (withBase (fun k => queryImg (fun selected => k (some selected))) scrollOp)

end V2

namespace P1

/-- A caller-facing complex selector of the `search` iterations
(`src/unnamed/part_001`): a string pattern, a custom locator function, an
ordered sequence, or any other (malformed) value described by a tag. -/
inductive CSel where
  | str (s : String)
  | fn (f : DTree → Option PPath → Option PPath)
  | arr (l : List CSel)
  | other (desc : String)

mutual
/-- `search` of `src/unnamed/part_001` (lines 12–23): resolve a complex
selector against a root.  An *array* is resolved by
`complexSelector.reduce(search, document)` — the fold starts from the
**document**, not from the passed root; a *function* is applied to the
root; a *string* is a `querySelector` lookup (a `TypeError` propagates when
the root is `null`); anything else hits `raise(new Error(...))` — and this
happens when `search` is applied, there is no earlier construction step. -/
def search (t : DTree) : Option PPath → CSel → Except String (Option PPath)
  | _, .arr l => searchList t (some []) l
  | root, .fn f => .ok (f t root)
  | root, .str s =>
    match root with
    | some r => .ok (querySelector t r s)
    | none => .error "TypeError: cannot read querySelector of null"
  | _, .other d => .error ("Selector must be a array, function, or string; got " ++ d)

/-- The `reduce` step of `search` over a sequence: each stage's result
feeds the next as its root; an exception aborts the fold. -/
def searchList (t : DTree) : Option PPath → List CSel → Except String (Option PPath)
  | acc, [] => .ok acc
  | acc, c :: cs =>
    match search t acc c with
    | .ok acc' => searchList t acc' cs
    | .error e => .error e
end

end P1

/-! ## Concrete test documents -/

/-- A two-node document: the root (no `matches` method, like the real
document object) with one child matching `"content"`. -/
def docTree : DTree :=
  .node { blankData with tags := ["doc"], canMatch := false }
    [.node { blankData with tags := ["content"] } []]

/-- Initial state over `docTree`. -/
def st0 : St := { tree := docTree, log := [], subs := [], cells := [] }

/-! ## Generic lemmas about the iteration helpers -/

/-- Running a pure event-recording operation over a node list appends one
event per node, in list order, and raises nothing. -/
theorem forEachOp_append_log (f : PPath → Event) :
    ∀ (l : List PPath) (s : St),
      forEachOp (fun n s' => (s'.addEvent (f n), none)) l s
        = ({ s with log := s.log ++ l.map f }, none) := by
  intro l
  induction l with
  | nil => intro s; simp [forEachOp]
  | cons n ns ih =>
    intro s
    simp only [forEachOp]
    rw [ih]
    simp [St.addEvent]

/-! ## C7 — empty-sequence ComplexSelector -/

/-- **C7 counterexample.**  The claim says the selector resolved from an
empty sequence is the identity, invoking the operation "on R itself,
unchanged" for every input root R.  For the `search` resolver of
`src/unnamed/part_001` this is false: `complexSelector.reduce(search,
document)` starts the fold from the **document**, so resolving `[]` from
the root `[0]` of `docTree` yields the document node `[]`, not `[0]`. -/
theorem c7_empty_sequence_counterexample :
    P1.search docTree (some [0]) (.arr []) = .ok (some [])
      ∧ some ([] : PPath) ≠ some [0] := by
  exact ⟨rfl, by decide⟩

/-- **C7 (amended).**  An empty sequence resolved through `chain` is the
identity selector: the downstream operation is invoked exactly once, on the
input root itself, unchanged.  The `search`-based resolver of part_001 maps
an empty sequence to the global document node instead, regardless of the
root it was given — the identity reading holds there only when the
evaluation root is the document. -/
theorem c7_empty_sequence_identity :
    (∀ (op : Op) (n : PPath) (s : St), chain [] op n s = op n s)
      ∧ (∀ (n : PPath) (s : St),
          (chain [] logOp n s).1.log = s.log ++ [Event.invoked n]
            ∧ (chain [] logOp n s).2 = none)
      ∧ (∀ (t : DTree) (r : Option PPath),
          P1.search t r (.arr []) = .ok (some [])) := by
  refine ⟨fun op n s => rfl, fun n s => ⟨?_, rfl⟩, fun t r => rfl⟩
  simp [chain, logOp, St.addEvent]

/-! ## C8 — `queryAll` multiplicity and order -/

/-- **C8.**  In both iterations, the selector built by
`matchAllDescendants(p)` (`queryAll`) invokes the downstream operation
exactly once per matching descendant of the input node, in document order
(`querySelectorAll` enumerates the matches in preorder), and raises
nothing; with zero matches the list is empty and the operation is never
invoked. -/
theorem c8_queryAll_invokes_once_per_match :
    ∀ (p : String) (n : PPath) (s : St),
      ((V1.queryAll p logOp n s).1.log
          = s.log ++ (querySelectorAll s.tree n p).map Event.invoked
        ∧ (V1.queryAll p logOp n s).2 = none)
      ∧ ((V2.queryAll p logOp n s).1.log
          = s.log ++ (querySelectorAll s.tree n p).map Event.invoked
        ∧ (V2.queryAll p logOp n s).2 = none) := by
  intro p n s
  have h := forEachOp_append_log Event.invoked (querySelectorAll s.tree n p) s
  have h1 : V1.queryAll p logOp n s
      = ({ s with log := s.log ++ (querySelectorAll s.tree n p).map Event.invoked },
          none) := h
  have h2 : V2.queryAll p logOp n s
      = ({ s with log := s.log ++ (querySelectorAll s.tree n p).map Event.invoked },
          none) := h
  rw [h1, h2]
  exact ⟨⟨rfl, rfl⟩, ⟨rfl, rfl⟩⟩

/-! ## C9 — `withBase` preserves the original root -/

/-- **C9.**  `withBase(S)(F)` applied to a root `n` invokes `F(selected)(n)`
— the original root threaded through unchanged as the second argument — for
each node `selected` that the inner selector discovers from `n`, in
discovery order.  Selectors are quantified by their discovery function, the
semantic shape given to them by the spec. -/
theorem c9_withBase_keeps_original_root :
    ∀ (d : DTree → PPath → List PPath) (n : PPath) (s : St),
      (withBase (selectorOfDiscovery d) logPairOp n s).1.log
          = s.log ++ (d s.tree n).map (fun x => Event.invokedWithBase x n)
        ∧ (withBase (selectorOfDiscovery d) logPairOp n s).2 = none := by
  intro d n s
  have h := forEachOp_append_log (fun x => Event.invokedWithBase x n) (d s.tree n) s
  have h1 : withBase (selectorOfDiscovery d) logPairOp n s
      = ({ s with
            log := s.log ++ (d s.tree n).map (fun x => Event.invokedWithBase x n) },
          none) := h
  rw [h1]
  exact ⟨rfl, rfl⟩

/-! ## C1 — zero matches under `matchFirstDescendant` -/

/-- **C1 counterexample.**  The claim says a zero-match `queryChildren`
operation "raises no error (silent soft miss)".  That is what iteration V1
does (lines 13–16), but in iteration V2 `queryChildren` is built on
`select` (lines 289–293), which **throws** `Failed to match ...` when the
lookup comes back empty: on `docTree`, which has no `"missing"` node, the
operation raises and the downstream operation is never invoked. -/
theorem c1_soft_miss_counterexample :
    (V2.queryChildren "missing" logOp [] st0).2
        = some "Failed to match selector in node"
      ∧ (V2.queryChildren "missing" logOp [] st0).1.log = [] := ⟨rfl, rfl⟩

/-- **C1 (amended).**  With zero matching descendants the downstream
operation is invoked zero times in both iterations (the input state is
returned untouched for every downstream operation), but only iteration V1
is silent about it: the `select`-based `queryChildren` of iteration V2
raises a `Failed to match` error at application time instead of skipping. -/
theorem c1_zero_match_behavior (p : String) (n : PPath) (s : St)
    (h : querySelector s.tree n p = none) :
    (∀ op : Op, V1.queryChildren p op n s = (s, none))
      ∧ (∀ op : Op,
          V2.queryChildren p op n s
            = (s, some "Failed to match selector in node")) := by
  constructor
  · intro op; simp [V1.queryChildren, h]
  · intro op; simp [V2.queryChildren, V2.select, h]

/-- Witness for C1: on `docTree` nothing matches `"missing"`, V1 returns
the state untouched with no error, V2 raises. -/
theorem c1_zero_match_behavior_witness :
    querySelector st0.tree [] "missing" = none
      ∧ V1.queryChildren "missing" logOp [] st0 = (st0, none)
      ∧ V2.queryChildren "missing" logOp [] st0
          = (st0, some "Failed to match selector in node") :=
  ⟨rfl, (c1_zero_match_behavior "missing" [] st0 rfl).1 logOp,
    (c1_zero_match_behavior "missing" [] st0 rfl).2 logOp⟩

/-! ## C2 — malformed selector input -/

/-- **C2 counterexample.**  The claim says a configuration value that is
neither string, function, nor array is rejected "immediately at
construction time".  But `auto` (lines 32–37 / 275–280) has no such check:
a malformed value (here a number described as `"42"`) is passed through
unchanged when the selector is built — no error is raised at construction
time. -/
theorem c2_construction_time_counterexample :
    auto V2.queryChildren (ConfigValue.other "42") = ConfigValue.other "42" := rfl

/-- **C2 (amended).**  Building a selector from a malformed configuration
value raises nothing in the combinator iterations: `auto` passes any value
that is neither a string nor `null` through unchanged, and the type fault
surfaces only at use time, when the value is invoked in selector position
(a `TypeError`).  In the `search` iteration of part_001 the explicit
`raise(new Error(...))` fires when `search` is applied to a root — also at
use time; there is no earlier construction step. -/
theorem c2_malformed_value_deferred_to_use :
    (∀ (b : String → Sel) (d : String),
        auto b (.other d) = ConfigValue.other d)
      ∧ (∀ (d : String) (op : Op) (n : PPath) (s : St),
          applySelectorValue (.other d) op n s
            = (s, some "TypeError: selector is not a function"))
      ∧ (∀ (t : DTree) (r : Option PPath) (d : String),
          P1.search t r (.other d)
            = .error ("Selector must be a array, function, or string; got " ++ d)) :=
  ⟨fun _ _ => rfl, fun _ _ _ _ => rfl, fun _ _ _ => rfl⟩

/-! ## C10 — `query` on a node without a `matches` method -/

/-- Whether the node at a path exposes a `matches` method at all (the
document root does not). -/
def hasMatchesMethod (t : DTree) (n : PPath) : Bool :=
  match getNode n t with
  | some sub => sub.dataOf.canMatch
  | none => false

/-- A node with no `matches` method never self-matches: the optional-chained
test `node.matches?.(p)` yields `undefined`, which is falsy. -/
theorem selfMatch_eq_false_of_no_matches (t : DTree) (n : PPath) (p : String)
    (h : hasMatchesMethod t n = false) : selfMatch t n p = false := by
  unfold hasMatchesMethod at h
  unfold selfMatch
  cases hg : getNode n t with
  | none => simp
  | some sub =>
    rw [hg] at h
    simp only [] at h
    simp [h]

/-- **C10.**  Applied to a node that provides no self-match capability
(its `matches` method is absent, as for the document root), `query` raises
nothing from the self-match test — the optional chaining turns it into a
falsy result — and behaves exactly as `queryChildren` on that node, in both
iterations. -/
theorem c10_query_without_matches_method (p : String) (op : Op) (n : PPath)
    (s : St) (h : hasMatchesMethod s.tree n = false) :
    V1.query p op n s = V1.queryChildren p op n s
      ∧ V2.query p op n s = V2.queryChildren p op n s := by
  have hs := selfMatch_eq_false_of_no_matches s.tree n p h
  constructor
  · simp [V1.query, hs]
  · simp [V2.query, V2.queryChildren, V2.select, hs]

/-- Witness for C10: the root of `docTree` models the document object
(`canMatch := false`); `query` coincides with `queryChildren` there in both
iterations. -/
theorem c10_query_without_matches_method_witness :
    hasMatchesMethod st0.tree [] = false
      ∧ V1.query "content" logOp [] st0 = V1.queryChildren "content" logOp [] st0
      ∧ V2.query "content" logOp [] st0 = V2.queryChildren "content" logOp [] st0 :=
  ⟨rfl, (c10_query_without_matches_method "content" logOp [] st0 rfl).1,
    (c10_query_without_matches_method "content" logOp [] st0 rfl).2⟩

/-! ## C3 — load-aware scroll -/

/-- A document whose `"content"` node contains an `"img"` descendant whose
load state is **not** complete. -/
def stImg : St :=
  { tree := .node { blankData with tags := ["doc"], canMatch := false }
      [.node { blankData with tags := ["content"] }
        [.node { blankData with tags := ["img"], complete := false } []]],
    log := [], subs := [], cells := [] }

/-- A document whose `"content"` node contains no image at all. -/
def stNoImg : St :=
  { tree := .node { blankData with tags := ["doc"], canMatch := false }
      [.node { blankData with tags := ["content"] } []],
    log := [], subs := [], cells := [] }

/-- **C3 (code bug).**  The claim requires: no image → scroll immediately;
incomplete image → scroll only after the load-or-error signal.  Both cited
iterations violate it.

In V1 the wrapped selector built inside `force` (lines 64–75) is never
applied to the node, so the `success` flag stays `false` and the factory
always receives `null` — contradicting `force`'s own doc comment ("if it
doesn't execute the operation at all"): on a content node with a
discoverable, incomplete image the scroll fires immediately
(`scrollNow`), never `scrollAfterSignal`.

In V2 `queryImg` is built on the throwing `select`, so with no image inside
the content node the operation raises instead of scrolling immediately (the
`img == null` branch of lines 394–396 is unreachable). -/
theorem c3_scroll_after_load_divergence :
    ((V1.scrollAfterLoad (V1.queryChildren "content") [] stImg).1.log
        = [Event.scrollNow [0]]
      ∧ (V1.scrollAfterLoad (V1.queryChildren "content") [] stImg).2 = none
      ∧ querySelector stImg.tree [0] "img" = some [0, 0]
      ∧ completeOf stImg.tree [0, 0] = false)
    ∧ ((V2.scrollAfterLoad (V2.queryChildren "content") [] stNoImg).1.log = []
      ∧ (V2.scrollAfterLoad (V2.queryChildren "content") [] stNoImg).2
          = some "Failed to match selector in node") :=
  ⟨⟨rfl, rfl, rfl, rfl⟩, ⟨rfl, rfl⟩⟩

/-! ## C6 — selectors never mutate the tree -/

/-- An operation has the frame property when it leaves the document tree
exactly as it found it, on every node and state. -/
def Preserves (op : Op) : Prop :=
  ∀ (n : PPath) (s : St), ((op n s).1).tree = s.tree

/-- A selector has the frame property when it maps tree-preserving
downstream operations to tree-preserving operations. -/
def PreservesSel (sel : Sel) : Prop :=
  ∀ op : Op, Preserves op → Preserves (sel op)

/-- Iterating a tree-preserving operation over a node list preserves the
tree (also when an exception aborts the iteration midway). -/
theorem forEachOp_preserves (op : Op) (hop : Preserves op) :
    ∀ (l : List PPath) (s : St), ((forEachOp op l s).1).tree = s.tree := by
  intro l
  induction l with
  | nil => intro s; rfl
  | cons n ns ih =>
    intro s
    have h := hop n s
    simp only [forEachOp]
    cases hres : op n s with
    | mk s' err =>
      rw [hres] at h
      cases err with
      | none => simpa using (ih s').trans h
      | some e => simpa using h

/-- Running a list of already-applied tree-preserving closures preserves
the tree. -/
theorem runSeq_preserves :
    ∀ (fs : List (St → Res)), (∀ f ∈ fs, ∀ s, ((f s).1).tree = s.tree) →
      ∀ s, ((runSeq fs s).1).tree = s.tree := by
  intro fs
  induction fs with
  | nil => intro _ s; rfl
  | cons f fs ih =>
    intro h s
    have hf := h f (List.mem_cons_self f fs) s
    simp only [runSeq]
    cases hres : f s with
    | mk s' err =>
      rw [hres] at hf
      cases err with
      | none =>
        have hrest := ih (fun g hg => h g (List.mem_cons_of_mem f hg)) s'
        simpa using hrest.trans hf
      | some e => simpa using hf

/-- **C6.**  Node discovery never mutates the tree: every selector of the
V2 algebra (lines 264–316) maps tree-preserving downstream operations to
tree-preserving operations, and the operation combinator `all` preserves
the tree when its members do.  Any change to the tree can therefore only
come from the downstream operation supplied by the caller. -/
theorem c6_selectors_never_mutate :
    (∀ (f : DTree → PPath → Option PPath) (op : Op),
        Preserves op → Preserves (V2.select f op))
      ∧ (∀ (f : DTree → PPath → List PPath) (op : Op),
        Preserves op → Preserves (V2.selectAll f op))
      ∧ (∀ p : String, PreservesSel (V2.queryChildren p))
      ∧ (∀ p : String, PreservesSel (V2.query p))
      ∧ (∀ p : String, PreservesSel (V2.queryAll p))
      ∧ (∀ sels : List Sel, (∀ sel ∈ sels, PreservesSel sel) →
          ∀ op : Op, Preserves op → Preserves (concat sels op))
      ∧ (∀ ops : List Op, (∀ op ∈ ops, Preserves op) → Preserves (allOps ops))
      ∧ (∀ (sel : Sel) (F : PPath → Op), PreservesSel sel →
          (∀ x, Preserves (F x)) → Preserves (withBase sel F))
      ∧ (∀ sels : List Sel, (∀ sel ∈ sels, PreservesSel sel) →
          ∀ op : Op, Preserves op → Preserves (chain sels op)) := by
  have hsel : ∀ (f : DTree → PPath → Option PPath) (op : Op),
      Preserves op → Preserves (V2.select f op) := by
    intro f op hop n s
    simp only [V2.select]
    cases f s.tree n with
    | some selected => exact hop selected s
    | none => rfl
  have hselAll : ∀ (f : DTree → PPath → List PPath) (op : Op),
      Preserves op → Preserves (V2.selectAll f op) := by
    intro f op hop n s
    exact forEachOp_preserves op hop (f s.tree n) s
  have hallOps : ∀ ops : List Op, (∀ op ∈ ops, Preserves op) →
      Preserves (allOps ops) := by
    intro ops h n s
    refine runSeq_preserves (ops.map (fun op => op n)) ?_ s
    intro g hg
    rcases List.mem_map.mp hg with ⟨op, hop, rfl⟩
    intro s'
    exact h op hop n s'
  have hwb : ∀ (sel : Sel) (F : PPath → Op), PreservesSel sel →
      (∀ x, Preserves (F x)) → Preserves (withBase sel F) := by
    intro sel F hs hF n s
    exact hs (fun selected => F selected n) (fun m s' => hF m n s') n s
  have hchain : ∀ sels : List Sel, (∀ sel ∈ sels, PreservesSel sel) →
      ∀ op : Op, Preserves op → Preserves (chain sels op) := by
    intro sels
    induction sels with
    | nil => intro _ op hop; exact hop
    | cons sel rest ih =>
      intro h op hop
      exact h sel (List.mem_cons_self sel rest)
        (chain rest op)
        (ih (fun g hg => h g (List.mem_cons_of_mem sel hg)) op hop)
  refine ⟨hsel, hselAll, fun p => hsel _, fun p => hsel _, fun p => hselAll _,
    ?_, hallOps, hwb, hchain⟩
  intro sels h op hop
  refine hallOps (sels.map (fun sel => sel op)) ?_
  intro g hg
  rcases List.mem_map.mp hg with ⟨sel, hsl, rfl⟩
  exact h sel hsl op hop

/-- Witness for C6: concrete tree-preservation facts on `docTree`, each
obtained from the corresponding conjunct with the recording operation
(which trivially preserves the tree). -/
theorem c6_selectors_never_mutate_witness :
    ((V2.queryChildren "content" logOp [] st0).1).tree = st0.tree
      ∧ ((chain [V2.queryAll "content"] logOp [] st0).1).tree = st0.tree
      ∧ ((withBase (V2.queryChildren "content") (fun _ => logOp) [] st0).1).tree
          = st0.tree
      ∧ ((allOps [logOp, logOp] [] st0).1).tree = st0.tree
      ∧ ((concat [V2.queryAll "doc"] logOp [] st0).1).tree = st0.tree := by
  have hlog : Preserves logOp := fun _ _ => rfl
  refine ⟨?_, ?_, ?_, ?_, ?_⟩
  · exact c6_selectors_never_mutate.2.2.1 "content" logOp hlog [] st0
  · refine c6_selectors_never_mutate.2.2.2.2.2.2.2.2 [V2.queryAll "content"]
      ?_ logOp hlog [] st0
    intro sel hs
    rw [List.mem_singleton.mp hs]
    exact c6_selectors_never_mutate.2.2.2.2.1 "content"
  · exact c6_selectors_never_mutate.2.2.2.2.2.2.2.1 (V2.queryChildren "content")
      (fun _ => logOp) (c6_selectors_never_mutate.2.2.1 "content")
      (fun _ => hlog) [] st0
  · refine c6_selectors_never_mutate.2.2.2.2.2.2.1 [logOp, logOp] ?_ [] st0
    intro op ho
    rcases List.mem_cons.mp ho with h | h
    · rw [h]; exact hlog
    · rw [List.mem_singleton.mp h]; exact hlog
  · refine c6_selectors_never_mutate.2.2.2.2.2.1 [V2.queryAll "doc"]
      ?_ logOp hlog [] st0
    intro sel hs
    rw [List.mem_singleton.mp hs]
    exact c6_selectors_never_mutate.2.2.2.2.1 "doc"

/-! ## C5 — keyboard navigator -/

/-- **C5.**  When the selector finds a target that exposes a truthy link,
`createNavigator` of iteration V2 registers exactly two subscriptions, both
on the root the operation was applied to (not the global document root):
a key-released handler that navigates to the link and suppresses default
handling exactly on the trigger key, and a key-pressed handler that
suppresses default handling on the trigger key and does nothing else.  The
tree and the log are untouched and nothing is raised.  When the selector
discovers nothing, or the target's link is absent or empty (falsy), no
subscription is registered and the state is returned unchanged. -/
theorem c5_navigator_subscriptions (d : DTree → PPath → List PPath)
    (k : String) (R : PPath) (s : St) :
    (∀ e u, d s.tree R = [e] → hrefOf s.tree e = some u → u ≠ "" →
      ∃ a b,
        (V2.createNavigator (selectorOfDiscovery d) k R s).2 = none
          ∧ (V2.createNavigator (selectorOfDiscovery d) k R s).1.subs
              = s.subs ++ [a, b]
          ∧ (V2.createNavigator (selectorOfDiscovery d) k R s).1.tree = s.tree
          ∧ (V2.createNavigator (selectorOfDiscovery d) k R s).1.log = s.log
          ∧ a.root = R ∧ a.onKeyup = true
          ∧ (∀ key, a.handle key
              = if key = k then ⟨some u, true⟩ else ⟨none, false⟩)
          ∧ b.root = R ∧ b.onKeyup = false
          ∧ (∀ key, b.handle key
              = if key = k then ⟨none, true⟩ else ⟨none, false⟩))
      ∧ (d s.tree R = [] →
          V2.createNavigator (selectorOfDiscovery d) k R s = (s, none))
      ∧ (∀ e, d s.tree R = [e] → (hrefOf s.tree e).getD "" = "" →
          V2.createNavigator (selectorOfDiscovery d) k R s = (s, none)) := by
  refine ⟨?_, ?_, ?_⟩
  · intro e u hd hh hu
    refine ⟨⟨R, true, fun key => if key = k then ⟨some u, true⟩ else ⟨none, false⟩⟩,
      ⟨R, false, fun key => if key = k then ⟨none, true⟩ else ⟨none, false⟩⟩, ?_⟩
    simp only [V2.createNavigator, withBase, selectorOfDiscovery, hd, forEachOp,
      hh, hu]
    simp [St.addSub, hu]
  · intro hd
    simp only [V2.createNavigator, withBase, selectorOfDiscovery, hd, forEachOp]
  · intro e hd hg
    simp only [V2.createNavigator, withBase, selectorOfDiscovery, hd, forEachOp]
    cases hh : hrefOf s.tree e with
    | none => simp [hh]
    | some u =>
      rw [hh] at hg
      simp only [Option.getD] at hg
      subst hg
      simp [hh]

/-- A document with one child exposing a link, for the navigator witness. -/
def stNav : St :=
  { tree := .node { blankData with tags := ["doc"], canMatch := false }
      [.node { blankData with tags := ["next"], href := some "https://x/2" } []],
    log := [], subs := [], cells := [] }

/-- Witness for C5: a selector discovering the linked child of `stNav`
yields exactly the two handlers, and a selector discovering nothing
registers nothing. -/
theorem c5_navigator_subscriptions_witness :
    (∃ a b,
      (V2.createNavigator (selectorOfDiscovery (fun _ _ => [[0]]))
          "ArrowRight" [] stNav).2 = none
        ∧ (V2.createNavigator (selectorOfDiscovery (fun _ _ => [[0]]))
            "ArrowRight" [] stNav).1.subs = stNav.subs ++ [a, b]
        ∧ (V2.createNavigator (selectorOfDiscovery (fun _ _ => [[0]]))
            "ArrowRight" [] stNav).1.tree = stNav.tree
        ∧ (V2.createNavigator (selectorOfDiscovery (fun _ _ => [[0]]))
            "ArrowRight" [] stNav).1.log = stNav.log
        ∧ a.root = [] ∧ a.onKeyup = true
        ∧ (∀ key, a.handle key
            = if key = "ArrowRight" then ⟨some "https://x/2", true⟩
              else ⟨none, false⟩)
        ∧ b.root = [] ∧ b.onKeyup = false
        ∧ (∀ key, b.handle key
            = if key = "ArrowRight" then ⟨none, true⟩ else ⟨none, false⟩))
      ∧ V2.createNavigator (selectorOfDiscovery (fun _ _ => []))
          "ArrowRight" [] stNav = (stNav, none) :=
  ⟨(c5_navigator_subscriptions (fun _ _ => [[0]]) "ArrowRight" [] stNav).1
      [0] "https://x/2" rfl rfl (by decide),
    (c5_navigator_subscriptions (fun _ _ => []) "ArrowRight" [] stNav).2.1 rfl⟩

/-! ## C4 — alt-text insertion -/

/-- The record of the text-bearing element of an inserted node: the node
itself when it has no children, else its first child (the span inside a
hyperlink wrapper). -/
def carriedData (n : DTree) : NodeData :=
  match n.kids with
  | [] => n.dataOf
  | c :: _ => c.dataOf

/-- A successful `insertAfterSib` leaves the subtree at the reference path
untouched and places the new node at the next-sibling path. -/
theorem insertAfterSib_getNode :
    ∀ (A : PPath) (new t t' : DTree), insertAfterSib A new t = some t' →
      getNode A t' = getNode A t ∧ getNode (sibAfter A) t' = some new := by
  intro A
  induction A with
  | nil =>
    intro new t t' h
    simp [insertAfterSib] at h
  | cons i tail ih =>
    intro new t t' h
    cases t with
    | node d cs =>
      cases tail with
      | nil =>
        simp only [insertAfterSib] at h
        by_cases hi : i < cs.length
        · rw [if_pos hi] at h
          injection h with h'
          subst h'
          have hlen : (cs.take (i + 1)).length = i + 1 := by
            simp [List.length_take]
            omega
          constructor
          · have hidx : (cs.take (i + 1) ++ new :: cs.drop (i + 1))[i]? = cs[i]? := by
              rw [List.getElem?_append, hlen, if_pos (Nat.lt_succ_self i),
                List.getElem?_take, if_pos (Nat.lt_succ_self i)]
            simp only [getNode, hidx]
          · have hidx : (cs.take (i + 1) ++ new :: cs.drop (i + 1))[i + 1]? = some new := by
              rw [List.getElem?_append, hlen]
              simp
            simp only [sibAfter, getNode, hidx]
        · rw [if_neg hi] at h
          exact absurd h (by simp)
      | cons j rest =>
        cases hci : cs[i]? with
        | none =>
          simp only [insertAfterSib, hci] at h
          exact absurd h (by simp)
        | some c =>
          simp only [insertAfterSib, hci] at h
          cases hrec : insertAfterSib (j :: rest) new c with
          | none =>
            simp only [hrec] at h
            exact absurd h (by simp)
          | some c' =>
            simp only [hrec] at h
            injection h with h'
            subst h'
            obtain ⟨ih1, ih2⟩ := ih new c c' hrec
            have hilen : i < cs.length := by
              by_contra hcon
              rw [List.getElem?_eq_none (Nat.le_of_not_lt hcon)] at hci
              exact Option.noConfusion hci
            have hset : (cs.set i c')[i]? = some c' :=
              List.getElem?_set_eq_of_lt c' hilen
            constructor
            · simp only [getNode, hset, hci, ih1]
            · simp only [sibAfter, getNode, hset, ih2]

/-- **C4.**  When the caption selector finds `T` and the after-selector
finds `A` (the at-most-one regime in which the orchestrator uses
`addAltText`), the V2 operation inserts exactly one new element: the final
tree is the input tree with the synthesised element placed at `A`'s
next-sibling position — `A`'s own subtree is untouched, so the element is a
sibling, not a child, of `A`.  The text-bearing element carries `T`'s
`title`, the fixed `16pt` font size, and the colour overrides (applied only
when truthy); the element exposes a hyperlink to the caption exactly when
`isLink` accepts the caption, in which case it is the anchor wrapping the
span, and otherwise it is the bare span with no link and no children. -/
theorem c4_addAltText_inserts_sibling (dT dA : DTree → PPath → List PPath)
    (fg bg : Option String) (R T A : PPath) (s : St) (t' : DTree)
    (hT : dT s.tree R = [T]) (hA : dA s.tree R = [A])
    (hins : insertAfterSib A (V2.mkInserted (titleOf s.tree T) fg bg) s.tree
      = some t') :
    V2.addAltText (selectorOfDiscovery dT) (selectorOfDiscovery dA) fg bg R s
        = ({ s with tree := t' }, none)
      ∧ getNode A t' = getNode A s.tree
      ∧ getNode (sibAfter A) t'
          = some (V2.mkInserted (titleOf s.tree T) fg bg)
      ∧ (carriedData (V2.mkInserted (titleOf s.tree T) fg bg)).innerText
          = titleOf s.tree T
      ∧ (carriedData (V2.mkInserted (titleOf s.tree T) fg bg)).fontSize = "16pt"
      ∧ (carriedData (V2.mkInserted (titleOf s.tree T) fg bg)).color
          = V2.truthyStr fg
      ∧ (carriedData (V2.mkInserted (titleOf s.tree T) fg bg)).backgroundColor
          = V2.truthyStr bg
      ∧ ((V2.mkInserted (titleOf s.tree T) fg bg).dataOf.href
          = if V2.isLink (titleOf s.tree T) then some (titleOf s.tree T)
            else none)
      ∧ (V2.isLink (titleOf s.tree T) = true →
          (V2.mkInserted (titleOf s.tree T) fg bg).kids
            = [DTree.node (V2.mkSpanData (titleOf s.tree T) fg bg) []])
      ∧ (V2.isLink (titleOf s.tree T) = false →
          (V2.mkInserted (titleOf s.tree T) fg bg).kids = []) := by
  obtain ⟨hkeep, hplace⟩ :=
    insertAfterSib_getNode A (V2.mkInserted (titleOf s.tree T) fg bg) s.tree t' hins
  refine ⟨?_, hkeep, hplace, ?_, ?_, ?_, ?_, ?_, ?_, ?_⟩
  · simp only [V2.addAltText, withBase, selectorOfDiscovery, hT, forEachOp,
      V2.insertOp, hA, hins]
  all_goals
    by_cases hl : V2.isLink (titleOf s.tree T) <;>
      simp [V2.mkInserted, carriedData, V2.mkSpanData, blankData, DTree.kids,
        DTree.dataOf, hl]

/-- Document for the alt-text witness: a caption node carrying the title
`"hello"` and an insertion target. -/
def stAlt : St :=
  { tree := .node { blankData with tags := ["doc"], canMatch := false }
      [.node { blankData with tags := ["cap"], title := "hello" } [],
       .node { blankData with tags := ["after"] } []],
    log := [], subs := [], cells := [] }

/-- The tree expected after the alt-text insertion on `stAlt`: the
synthesised element sits after the `"after"` node, as its sibling. -/
def altTreeAfter : DTree :=
  .node { blankData with tags := ["doc"], canMatch := false }
    [.node { blankData with tags := ["cap"], title := "hello" } [],
     .node { blankData with tags := ["after"] } [],
     V2.mkInserted "hello" (some "red") none]

/-- Witness for C4: inserting the (non-URL) caption `"hello"` with a red
foreground after the second child of `stAlt`. -/
theorem c4_addAltText_inserts_sibling_witness :
    V2.addAltText (selectorOfDiscovery (fun _ _ => [[0]]))
        (selectorOfDiscovery (fun _ _ => [[1]])) (some "red") none [] stAlt
        = ({ stAlt with tree := altTreeAfter }, none)
      ∧ getNode [1] altTreeAfter = getNode [1] stAlt.tree
      ∧ getNode (sibAfter [1]) altTreeAfter
          = some (V2.mkInserted (titleOf stAlt.tree [0]) (some "red") none)
      ∧ (carriedData (V2.mkInserted (titleOf stAlt.tree [0])
          (some "red") none)).innerText = titleOf stAlt.tree [0]
      ∧ (carriedData (V2.mkInserted (titleOf stAlt.tree [0])
          (some "red") none)).fontSize = "16pt"
      ∧ (carriedData (V2.mkInserted (titleOf stAlt.tree [0])
          (some "red") none)).color = V2.truthyStr (some "red")
      ∧ (carriedData (V2.mkInserted (titleOf stAlt.tree [0])
          (some "red") none)).backgroundColor = V2.truthyStr none
      ∧ ((V2.mkInserted (titleOf stAlt.tree [0]) (some "red") none).dataOf.href
          = if V2.isLink (titleOf stAlt.tree [0])
            then some (titleOf stAlt.tree [0]) else none)
      ∧ (V2.isLink (titleOf stAlt.tree [0]) = true →
          (V2.mkInserted (titleOf stAlt.tree [0]) (some "red") none).kids
            = [DTree.node (V2.mkSpanData (titleOf stAlt.tree [0])
                (some "red") none) []])
      ∧ (V2.isLink (titleOf stAlt.tree [0]) = false →
          (V2.mkInserted (titleOf stAlt.tree [0]) (some "red") none).kids
            = []) :=
  c4_addAltText_inserts_sibling (fun _ _ => [[0]]) (fun _ _ => [[1]])
    (some "red") none [] [0] [1] stAlt altTreeAfter rfl rfl rfl
